import Mathlib

/-!
# A four-function calculator: shallow embedding and verification

The calculator's input state machine lives in `src/components/Calculator.tsx`:
four state fields (`display`, `previousValue`, `operator`, `waitingForOperand`)
and six handlers (`handleNumber`, `handleOperator`, `handleEquals`,
`handleClear`, `handleDecimal`, `handleBackspace`).  The arithmetic engine
(`calculate` and the `Operator` type, imported from `../lib/calculatorEngine`)
and the platform's number/string conversions are not part of the repository
sources, so they are modelled from the specification; the handlers themselves
are embedded directly from the TypeScript source.
-/

namespace Calc

/-- Modelled from the spec: the `Operator` type of `calculatorEngine` (the file
is absent from the sources) — the four-element operator set
add / subtract / multiply / divide. -/
inductive Op where
  | add
  | sub
  | mul
  | div
deriving DecidableEq

/-- Modelled from the spec: the runtime numeric domain, idealised — a number is
either a finite value (modelled exactly as a rational) or one of the IEEE-754
sentinels Infinity, -Infinity, NaN produced e.g. by division by zero. -/
inductive JSNum where
  | finite (q : ℚ)
  | posInf
  | negInf
  | nan
deriving DecidableEq

/-- Negation on the extended numeric domain. -/
def jsNeg : JSNum → JSNum
  | .finite q => .finite (-q)
  | .posInf => .negInf
  | .negInf => .posInf
  | .nan => .nan

/-- Addition on the extended numeric domain, IEEE-754 sentinel rules. -/
def jsAdd : JSNum → JSNum → JSNum
  | .nan, _ => .nan
  | _, .nan => .nan
  | .posInf, .negInf => .nan
  | .negInf, .posInf => .nan
  | .posInf, _ => .posInf
  | _, .posInf => .posInf
  | .negInf, _ => .negInf
  | _, .negInf => .negInf
  | .finite a, .finite b => .finite (a + b)

/-- Subtraction: addition of the negation, as in IEEE-754. -/
def jsSub (a b : JSNum) : JSNum := jsAdd a (jsNeg b)

/-- Multiplication on the extended numeric domain, IEEE-754 sentinel rules. -/
def jsMul : JSNum → JSNum → JSNum
  | .nan, _ => .nan
  | _, .nan => .nan
  | .posInf, .posInf => .posInf
  | .posInf, .negInf => .negInf
  | .negInf, .posInf => .negInf
  | .negInf, .negInf => .posInf
  | .posInf, .finite b => if 0 < b then .posInf else if b < 0 then .negInf else .nan
  | .finite a, .posInf => if 0 < a then .posInf else if a < 0 then .negInf else .nan
  | .negInf, .finite b => if 0 < b then .negInf else if b < 0 then .posInf else .nan
  | .finite a, .negInf => if 0 < a then .negInf else if a < 0 then .posInf else .nan
  | .finite a, .finite b => .finite (a * b)

/-- Division on the extended numeric domain; a finite value divided by zero
yields the signed infinity (or NaN for 0/0), as standard floating point does. -/
def jsDiv : JSNum → JSNum → JSNum
  | .nan, _ => .nan
  | _, .nan => .nan
  | .posInf, .posInf => .nan
  | .posInf, .negInf => .nan
  | .negInf, .posInf => .nan
  | .negInf, .negInf => .nan
  | .posInf, .finite b => if b < 0 then .negInf else .posInf
  | .negInf, .finite b => if b < 0 then .posInf else .negInf
  | .finite _, .posInf => .finite 0
  | .finite _, .negInf => .finite 0
  | .finite a, .finite b =>
    if b = 0 then
      if 0 < a then .posInf else if a < 0 then .negInf else .nan
    else .finite (a / b)

/-- Modelled from the spec: `calculate(left, right, operator)` of
`calculatorEngine` (absent from the sources) — add maps to left + right,
subtract to left − right, multiply to left × right, divide to left ÷ right with
the IEEE-754 sentinel for a zero right operand; total, never raising. -/
def calculate (left right : JSNum) (op : Op) : JSNum :=
  match op with
  | .add => jsAdd left right
  | .sub => jsSub left right
  | .mul => jsMul left right
  | .div => jsDiv left right

/-- Is the character a decimal digit 0-9? -/
def isDigitCh (c : Char) : Bool := decide ('0' ≤ c) && decide (c ≤ '9')

/-- The character for a digit value (0 ↦ '0', …, 9 ↦ '9'). -/
def digitCh (n : Nat) : Char := Char.ofNat (48 + n)

/-- Decimal digits of a natural number, most significant first (fuel-indexed). -/
def natToCharsAux : Nat → Nat → List Char
  | 0, _ => []
  | f + 1, n => if n = 0 then [] else natToCharsAux f (n / 10) ++ [digitCh (n % 10)]

/-- Decimal digit string of a natural number ("0" for zero). -/
def natToChars (n : Nat) : List Char :=
  if n = 0 then ['0'] else natToCharsAux (n + 1) n

/-- Fractional decimal digits of `rem / den` by long division, at most `f` of
them, stopping when the remainder vanishes. -/
def fracCharsAux : Nat → Nat → Nat → List Char
  | 0, _, _ => []
  | f + 1, rem, den =>
    if rem = 0 then [] else digitCh (rem * 10 / den) :: fracCharsAux f (rem * 10 % den) den

/-- Decimal rendering of a rational: optional minus sign, integer part, and a
fractional part when nonzero (truncated at 20 digits). -/
def ratToChars (q : ℚ) : List Char :=
  (if q < 0 then ['-'] else []) ++ natToChars (q.num.natAbs / q.den) ++
  (if fracCharsAux 20 (q.num.natAbs % q.den) q.den = [] then []
   else '.' :: fracCharsAux 20 (q.num.natAbs % q.den) q.den)

/-- Modelled from the spec: the platform's numeric-to-text conversion
("standard shortest round-trippable decimal representation"), idealised as the
exact decimal expansion of the rational (truncated at 20 fractional digits),
with the JavaScript spellings "Infinity", "-Infinity", "NaN" for sentinels. -/
def numToString : JSNum → String
  | .nan => "NaN"
  | .posInf => "Infinity"
  | .negInf => "-Infinity"
  | .finite q => String.mk (ratToChars q)

/-- Longest prefix of decimal digits, and the rest. -/
def spanDigits : List Char → List Char × List Char
  | [] => ([], [])
  | c :: cs =>
    if isDigitCh c then
      let p := spanDigits cs
      (c :: p.1, p.2)
    else ([], c :: cs)

/-- Numeric value of a string of decimal digits. -/
def digitsToNat (l : List Char) : Nat :=
  l.foldl (fun acc c => acc * 10 + (c.toNat - 48)) 0

/-- Fractional digits after a leading '.', empty otherwise. -/
def parseFracDigits : List Char → List Char
  | '.' :: t => (spanDigits t).1
  | _ => []

/-- Unsigned part of float parsing: "Infinity", or digits with an optional
fractional part; `none` when no numeric prefix exists. -/
def parseMag (cs : List Char) : Option JSNum :=
  if cs.take 8 = "Infinity".data then some .posInf
  else if (spanDigits cs).1 = [] ∧ parseFracDigits (spanDigits cs).2 = [] then none
  else some (.finite
    ((digitsToNat ((spanDigits cs).1 ++ parseFracDigits (spanDigits cs).2) : ℚ) /
      10 ^ (parseFracDigits (spanDigits cs).2).length))

/-- Modelled from the spec: JavaScript `Number.parseFloat` — optional sign,
then "Infinity" or decimal digits with an optional fractional part, reading the
longest numeric prefix; `none` when the text has no numeric prefix.  Exponents
and leading whitespace never occur on this calculator's display and are not
modelled. -/
def jsParseFloatCore (l : List Char) : Option JSNum :=
  match l with
  | [] => none
  | c :: t =>
    if c = '-' then (parseMag t).map jsNeg
    else if c = '+' then parseMag t
    else parseMag (c :: t)

/-- `Number.parseFloat` as used by the handlers: NaN when nothing parses. -/
def jsParseFloat (s : String) : JSNum := (jsParseFloatCore s.data).getD .nan

/-- The four state fields of the calculator (`useState` hooks in
`Calculator.tsx`): display text, pending operand, pending operator, and the
awaiting-new-operand flag. -/
structure CalcState where
  display : String
  previousValue : Option JSNum
  operator : Option Op
  waitingForOperand : Bool
deriving DecidableEq

/-- The initial state: display "0", no pending operand or operator, not
awaiting a new operand. -/
def initState : CalcState := ⟨"0", none, none, false⟩

/-- The first occurrence of '.' removed — JavaScript
`next.replace(".", "")` (string-pattern `replace` replaces the first
occurrence only). -/
def removeFirstDot : List Char → List Char
  | [] => []
  | c :: cs => if c = '.' then cs else c :: removeFirstDot cs

/-- `handleNumber` from `Calculator.tsx`: while awaiting a new operand the
digit starts a fresh display; otherwise it replaces a lone "0" or is appended,
unless the digit count (decimal point excluded) would exceed 15. -/
def handleNumber (digit : String) (s : CalcState) : CalcState :=
  if s.waitingForOperand then
    { s with display := digit, waitingForOperand := false }
  else
    let next := if s.display = "0" then digit else String.mk (s.display.data ++ digit.data)
    if (removeFirstDot next.data).length > 15 then s
    else { s with display := next }

/-- `handleOperator` from `Calculator.tsx`: parse the display; with no pending
operand, record it and the operator; with a pending operand, operator and a
typed operand, evaluate and chain; otherwise substitute the operator. -/
def handleOperator (nextOperator : Op) (s : CalcState) : CalcState :=
  let inputValue := jsParseFloat s.display
  match s.previousValue with
  | none =>
    { s with previousValue := some inputValue, operator := some nextOperator,
             waitingForOperand := true }
  | some pv =>
    match s.operator, s.waitingForOperand with
    | some o, false =>
      let result := calculate pv inputValue o
      { display := numToString result, previousValue := some result,
        operator := some nextOperator, waitingForOperand := true }
    | _, _ =>
      { s with operator := some nextOperator, waitingForOperand := true }

/-- `handleEquals` from `Calculator.tsx`: a no-op unless both an operator and a
pending operand exist; otherwise evaluate, show the result, and clear the
pending operation. -/
def handleEquals (s : CalcState) : CalcState :=
  match s.operator, s.previousValue with
  | some o, some pv =>
    { display := numToString (calculate pv (jsParseFloat s.display) o),
      previousValue := none, operator := none, waitingForOperand := true }
  | _, _ => s

/-- `handleClear` from `Calculator.tsx`: reset all four fields. -/
def handleClear (_ : CalcState) : CalcState := initState

/-- `handleDecimal` from `Calculator.tsx`: while awaiting a new operand start
"0."; otherwise append '.' unless the display already contains one. -/
def handleDecimal (s : CalcState) : CalcState :=
  if s.waitingForOperand then
    { s with display := "0.", waitingForOperand := false }
  else if '.' ∈ s.display.data then s
  else { s with display := String.mk (s.display.data ++ ['.']) }

/-- `handleBackspace` from `Calculator.tsx`: a no-op while awaiting a new
operand; otherwise drop the last character (`slice(0, -1)`), an emptied display
becoming "0" (`next || "0"`). -/
def handleBackspace (s : CalcState) : CalcState :=
  if s.waitingForOperand then s
  else
    let next := s.display.data.dropLast
    { s with display := if next = [] then "0" else String.mk next }

/-- The character for a digit key 0-9. -/
def digitCh10 (n : Fin 10) : Char := digitCh n.val

/-- The one-character string passed to `handleNumber` for a digit key. -/
def digitStr (n : Fin 10) : String := String.mk [digitCh10 n]

/-- The input events the UI can deliver to the state machine: digit entry,
operator selection, decimal entry, equals, backspace, clear. -/
inductive Ev where
  | num (d : Fin 10)
  | op (o : Op)
  | dec
  | eq
  | back
  | clear
deriving DecidableEq

/-- One transition of the state machine: each event invokes its handler. -/
def step : Ev → CalcState → CalcState
  | .num d => handleNumber (digitStr d)
  | .op o => handleOperator o
  | .dec => handleDecimal
  | .eq => handleEquals
  | .back => handleBackspace
  | .clear => handleClear

/-- Run a sequence of input events from a state. -/
def run (evs : List Ev) (s : CalcState) : CalcState :=
  evs.foldl (fun t e => step e t) s

/-- States reachable from the initial state by input events. -/
inductive Reachable : CalcState → Prop where
  | init : Reachable initState
  | next (e : Ev) {s : CalcState} : Reachable s → Reachable (step e s)

/-- Lexicographic comparison of character lists — JavaScript's `<=` on
strings, which `handleKeyDown` uses for the digit-key range check. -/
def charListLe : List Char → List Char → Bool
  | [], _ => true
  | _ :: _, [] => false
  | a :: as, b :: bs =>
    if a < b then true else if b < a then false else charListLe as bs

/-- JavaScript string `<=` on Lean strings. -/
def strLe (a b : String) : Bool := charListLe a.data b.data

/-- The window keydown dispatcher `handleKeyDown` (keyboard variant of
`Calculator.tsx`): a digit key in the range "0"-"9" enters the digit, the four
operator keys select the operator, Enter and "=" are equals, "." and "," are
decimal entry, Backspace and Delete are backspace, Escape is clear; any other
key is ignored. -/
def keyStep (key : String) (s : CalcState) : CalcState :=
  if strLe "0" key && strLe key "9" then handleNumber key s
  else if key = "+" then handleOperator .add s
  else if key = "-" then handleOperator .sub s
  else if key = "*" then handleOperator .mul s
  else if key = "/" then handleOperator .div s
  else if key = "Enter" ∨ key = "=" then handleEquals s
  else if key = "." ∨ key = "," then handleDecimal s
  else if key = "Backspace" ∨ key = "Delete" then handleBackspace s
  else if key = "Escape" then handleClear s
  else s

/-- The on-screen buttons of the calculator grid. -/
inductive ButtonId where
  | acBtn
  | backBtn
  | divBtn
  | mulBtn
  | subBtn
  | addBtn
  | digitBtn (n : Fin 10)
  | decBtn
  | eqBtn
deriving DecidableEq

/-- The onClick action wired to each button in the grid of `Calculator.tsx`. -/
def buttonStep : ButtonId → CalcState → CalcState
  | .acBtn => handleClear
  | .backBtn => handleBackspace
  | .divBtn => handleOperator .div
  | .mulBtn => handleOperator .mul
  | .subBtn => handleOperator .sub
  | .addBtn => handleOperator .add
  | .digitBtn n => handleNumber (digitStr n)
  | .decBtn => handleDecimal
  | .eqBtn => handleEquals

/-- The display text has a numeric prefix, so `parseFloat` yields a number
rather than falling back to NaN. -/
def ParsesAsNumeric (s : String) : Prop := (jsParseFloatCore s.data).isSome = true

instance instDecParses (s : String) : Decidable (ParsesAsNumeric s) :=
  inferInstanceAs (Decidable ((jsParseFloatCore s.data).isSome = true))

/-! ## The typed-display invariant -/

/-- Does the list start with a decimal digit? -/
def headIsDigit : List Char → Bool
  | [] => false
  | c :: _ => isDigitCh c

/-- Hand-typed display text: starts with a digit, holds only digits and at
most one decimal point. -/
def TypedChars (l : List Char) : Prop :=
  headIsDigit l = true ∧ (∀ c ∈ l, isDigitCh c = true ∨ c = '.') ∧ l.count '.' ≤ 1

/-- Hand-typed display text, as a predicate on strings. -/
def TypedStr (s : String) : Prop := TypedChars s.data

/-- The inductive invariant: pending operator and operand absent together; the
display is hand-typed text whenever no fresh operand is awaited; and the
display is always either hand-typed text or the rendering of a number. -/
def GoodState (s : CalcState) : Prop :=
  (s.operator = none ↔ s.previousValue = none) ∧
  (s.waitingForOperand = false → TypedStr s.display) ∧
  (TypedStr s.display ∨ ∃ v, s.display = numToString v)

instance instDecTypedChars (l : List Char) : Decidable (TypedChars l) :=
  inferInstanceAs (Decidable (headIsDigit l = true ∧
    (∀ c ∈ l, isDigitCh c = true ∨ c = '.') ∧ l.count '.' ≤ 1))

instance instDecTypedStr (s : String) : Decidable (TypedStr s) :=
  inferInstanceAs (Decidable (TypedChars s.data))

lemma isDigitCh_ne_dot {c : Char} (h : isDigitCh c = true) : c ≠ '.' := by
  intro he
  subst he
  exact absurd h (by decide)

lemma typedChars_append_digit {l : List Char} {c : Char} (hl : TypedChars l)
    (hc : isDigitCh c = true) : TypedChars (l ++ [c]) := by
  obtain ⟨h1, h2, h3⟩ := hl
  refine ⟨?_, ?_, ?_⟩
  · cases l with
    | nil => exact absurd h1 (by simp [headIsDigit])
    | cons a t => simpa [headIsDigit] using h1
  · intro x hx
    rcases List.mem_append.mp hx with hx | hx
    · exact h2 x hx
    · simp only [List.mem_singleton] at hx
      subst hx
      exact Or.inl hc
  · rw [List.count_append]
    have : List.count '.' [c] = 0 :=
      List.count_eq_zero.mpr (by simp [(isDigitCh_ne_dot hc).symm])
    omega

lemma typedChars_append_dot {l : List Char} (hl : TypedChars l)
    (h0 : l.count '.' = 0) : TypedChars (l ++ ['.']) := by
  obtain ⟨h1, h2, _⟩ := hl
  refine ⟨?_, ?_, ?_⟩
  · cases l with
    | nil => exact absurd h1 (by simp [headIsDigit])
    | cons a t => simpa [headIsDigit] using h1
  · intro x hx
    rcases List.mem_append.mp hx with hx | hx
    · exact h2 x hx
    · simp only [List.mem_singleton] at hx
      exact Or.inr hx
  · rw [List.count_append, h0]
    simp [List.count_singleton]

lemma typedChars_dropLast {l : List Char} (hl : TypedChars l)
    (hne : l.dropLast ≠ []) : TypedChars l.dropLast := by
  obtain ⟨h1, h2, h3⟩ := hl
  refine ⟨?_, ?_, ?_⟩
  · cases l with
    | nil => exact absurd h1 (by simp [headIsDigit])
    | cons a t =>
      cases t with
      | nil => exact absurd rfl hne
      | cons b t' => simpa [List.dropLast_cons₂, headIsDigit] using h1
  · intro x hx
    exact h2 x (List.mem_of_mem_dropLast hx)
  · exact le_trans ((List.dropLast_sublist l).count_le '.') h3

lemma typedStr_digitStr (d : Fin 10) : TypedStr (digitStr d) := by
  fin_cases d <;> decide

lemma typedStr_zero : TypedStr "0" := by decide

lemma typedStr_zeroDot : TypedStr "0." := by decide

lemma isDigitCh_digitCh10 (d : Fin 10) : isDigitCh (digitCh10 d) = true := by
  fin_cases d <;> decide

/-! ## Characterization of each handler, branch by branch -/

lemma handleNumber_waiting (d : String) {s : CalcState} (hw : s.waitingForOperand = true) :
    handleNumber d s = { s with display := d, waitingForOperand := false } := by
  unfold handleNumber
  rw [if_pos hw]

lemma handleNumber_typing (d : String) {s : CalcState} (hw : s.waitingForOperand = false) :
    handleNumber d s =
      (if (removeFirstDot (if s.display = "0" then d
            else String.mk (s.display.data ++ d.data)).data).length > 15 then s
       else { s with display := if s.display = "0" then d
                                else String.mk (s.display.data ++ d.data) }) := by
  unfold handleNumber
  rw [if_neg (by simp [hw])]

lemma handleNumber_typing_zero (d : String) {s : CalcState}
    (hw : s.waitingForOperand = false) (h0 : s.display = "0") :
    handleNumber d s =
      (if (removeFirstDot d.data).length > 15 then s else { s with display := d }) := by
  rw [handleNumber_typing d hw, if_pos h0]

lemma handleNumber_typing_append (d : String) {s : CalcState}
    (hw : s.waitingForOperand = false) (h0 : ¬s.display = "0") :
    handleNumber d s =
      (if (removeFirstDot (s.display.data ++ d.data)).length > 15 then s
       else { s with display := String.mk (s.display.data ++ d.data) }) := by
  rw [handleNumber_typing d hw, if_neg h0]

lemma handleOperator_start (o : Op) {s : CalcState} (hp : s.previousValue = none) :
    handleOperator o s =
      { s with previousValue := some (jsParseFloat s.display),
               operator := some o, waitingForOperand := true } := by
  unfold handleOperator
  rw [hp]

lemma handleOperator_compute (o : Op) {s : CalcState} {pv : JSNum} {o' : Op}
    (hp : s.previousValue = some pv) (ho : s.operator = some o')
    (hw : s.waitingForOperand = false) :
    handleOperator o s =
      { display := numToString (calculate pv (jsParseFloat s.display) o'),
        previousValue := some (calculate pv (jsParseFloat s.display) o'),
        operator := some o, waitingForOperand := true } := by
  unfold handleOperator
  rw [hp, ho, hw]

lemma handleOperator_subst (o : Op) {s : CalcState} {pv : JSNum}
    (hp : s.previousValue = some pv)
    (h : s.operator = none ∨ s.waitingForOperand = true) :
    handleOperator o s = { s with operator := some o, waitingForOperand := true } := by
  unfold handleOperator
  rw [hp]
  rcases h with h | h
  · rw [h]
  · cases ho : s.operator with
    | none => rfl
    | some o'' => rw [h]

lemma handleEquals_compute {s : CalcState} {o' : Op} {pv : JSNum}
    (ho : s.operator = some o') (hp : s.previousValue = some pv) :
    handleEquals s =
      ⟨numToString (calculate pv (jsParseFloat s.display) o'), none, none, true⟩ := by
  unfold handleEquals
  rw [ho, hp]

lemma handleEquals_noop {s : CalcState}
    (h : s.operator = none ∨ s.previousValue = none) : handleEquals s = s := by
  unfold handleEquals
  rcases h with h | h
  · rw [h]
  · cases ho : s.operator with
    | none => rfl
    | some o'' => rw [h]

lemma handleDecimal_waiting {s : CalcState} (hw : s.waitingForOperand = true) :
    handleDecimal s = { s with display := "0.", waitingForOperand := false } := by
  unfold handleDecimal
  rw [if_pos hw]

lemma handleDecimal_has_dot {s : CalcState} (hw : s.waitingForOperand = false)
    (hd : '.' ∈ s.display.data) : handleDecimal s = s := by
  unfold handleDecimal
  rw [if_neg (by simp [hw]), if_pos hd]

lemma handleDecimal_no_dot {s : CalcState} (hw : s.waitingForOperand = false)
    (hd : '.' ∉ s.display.data) :
    handleDecimal s = { s with display := String.mk (s.display.data ++ ['.']) } := by
  unfold handleDecimal
  rw [if_neg (by simp [hw]), if_neg hd]

lemma handleBackspace_waiting {s : CalcState} (hw : s.waitingForOperand = true) :
    handleBackspace s = s := by
  unfold handleBackspace
  rw [if_pos hw]

lemma handleBackspace_typing {s : CalcState} (hw : s.waitingForOperand = false) :
    handleBackspace s =
      { s with display := if s.display.data.dropLast = [] then "0"
                          else String.mk s.display.data.dropLast } := by
  unfold handleBackspace
  rw [if_neg (by simp [hw])]

/-! ## Preservation of the invariant by each handler -/

lemma goodState_handleNumber (d : Fin 10) (s : CalcState) (h : GoodState s) :
    GoodState (handleNumber (digitStr d) s) := by
  obtain ⟨h1, h2, h3⟩ := h
  cases hw : s.waitingForOperand with
  | true =>
    rw [handleNumber_waiting _ hw]
    exact ⟨h1, fun _ => typedStr_digitStr d, Or.inl (typedStr_digitStr d)⟩
  | false =>
    have ht : TypedStr s.display := h2 hw
    by_cases h0 : s.display = "0"
    · rw [handleNumber_typing_zero _ hw h0]
      split
      · exact ⟨h1, h2, h3⟩
      · exact ⟨h1, fun _ => typedStr_digitStr d, Or.inl (typedStr_digitStr d)⟩
    · rw [handleNumber_typing_append _ hw h0]
      split
      · exact ⟨h1, h2, h3⟩
      · have ht' : TypedStr (String.mk (s.display.data ++ (digitStr d).data)) :=
          typedChars_append_digit ht (isDigitCh_digitCh10 d)
        exact ⟨h1, fun _ => ht', Or.inl ht'⟩

lemma goodState_handleOperator (o : Op) (s : CalcState) (h : GoodState s) :
    GoodState (handleOperator o s) := by
  obtain ⟨h1, _, h3⟩ := h
  cases hp : s.previousValue with
  | none =>
    rw [handleOperator_start o hp]
    exact ⟨by simp, by simp, h3⟩
  | some v =>
    cases ho : s.operator with
    | none =>
      rw [handleOperator_subst o hp (Or.inl ho)]
      exact ⟨by simp [hp], by simp, h3⟩
    | some o' =>
      cases hw : s.waitingForOperand with
      | true =>
        rw [handleOperator_subst o hp (Or.inr hw)]
        exact ⟨by simp [hp], by simp, h3⟩
      | false =>
        rw [handleOperator_compute o hp ho hw]
        exact ⟨by simp, by simp, Or.inr ⟨calculate v (jsParseFloat s.display) o', rfl⟩⟩

lemma goodState_handleEquals (s : CalcState) (h : GoodState s) :
    GoodState (handleEquals s) := by
  obtain ⟨h1, h2, h3⟩ := h
  cases ho : s.operator with
  | none => rw [handleEquals_noop (Or.inl ho)]; exact ⟨h1, h2, h3⟩
  | some o' =>
    cases hp : s.previousValue with
    | none => rw [handleEquals_noop (Or.inr hp)]; exact ⟨h1, h2, h3⟩
    | some v =>
      rw [handleEquals_compute ho hp]
      exact ⟨by simp, by simp, Or.inr ⟨calculate v (jsParseFloat s.display) o', rfl⟩⟩

lemma goodState_handleClear (s : CalcState) : GoodState (handleClear s) :=
  ⟨by simp [handleClear, initState], fun _ => typedStr_zero, Or.inl typedStr_zero⟩

lemma goodState_handleDecimal (s : CalcState) (h : GoodState s) :
    GoodState (handleDecimal s) := by
  obtain ⟨h1, h2, h3⟩ := h
  cases hw : s.waitingForOperand with
  | true =>
    rw [handleDecimal_waiting hw]
    exact ⟨h1, fun _ => typedStr_zeroDot, Or.inl typedStr_zeroDot⟩
  | false =>
    have ht : TypedStr s.display := h2 hw
    by_cases hd : '.' ∈ s.display.data
    · rw [handleDecimal_has_dot hw hd]
      exact ⟨h1, h2, h3⟩
    · rw [handleDecimal_no_dot hw hd]
      have ht' : TypedStr (String.mk (s.display.data ++ ['.'])) :=
        typedChars_append_dot ht (List.count_eq_zero.mpr hd)
      exact ⟨h1, fun _ => ht', Or.inl ht'⟩

lemma goodState_handleBackspace (s : CalcState) (h : GoodState s) :
    GoodState (handleBackspace s) := by
  obtain ⟨h1, h2, h3⟩ := h
  cases hw : s.waitingForOperand with
  | true => rw [handleBackspace_waiting hw]; exact ⟨h1, h2, h3⟩
  | false =>
    have ht : TypedStr s.display := h2 hw
    rw [handleBackspace_typing hw]
    split
    · exact ⟨h1, fun _ => typedStr_zero, Or.inl typedStr_zero⟩
    · rename_i hne
      have ht' : TypedStr (String.mk s.display.data.dropLast) := typedChars_dropLast ht hne
      exact ⟨h1, fun _ => ht', Or.inl ht'⟩

lemma goodState_init : GoodState initState :=
  ⟨by simp [initState], fun _ => typedStr_zero, Or.inl typedStr_zero⟩

lemma goodState_step (e : Ev) (s : CalcState) (h : GoodState s) :
    GoodState (step e s) := by
  cases e with
  | num d => exact goodState_handleNumber d s h
  | op o => exact goodState_handleOperator o s h
  | dec => exact goodState_handleDecimal s h
  | eq => exact goodState_handleEquals s h
  | back => exact goodState_handleBackspace s h
  | clear => exact goodState_handleClear s

lemma reachable_goodState {s : CalcState} (h : Reachable s) : GoodState s := by
  induction h with
  | init => exact goodState_init
  | next e _ ih => exact goodState_step e _ ih

/-! ## Every reachable display parses (except the NaN rendering) -/

lemma isDigitCh_ne_minus {c : Char} (h : isDigitCh c = true) : c ≠ '-' := by
  intro he
  subst he
  exact absurd h (by decide)

lemma isDigitCh_ne_plus {c : Char} (h : isDigitCh c = true) : c ≠ '+' := by
  intro he
  subst he
  exact absurd h (by decide)

lemma take_ne_infinity {c : Char} {t : List Char} (hc : isDigitCh c = true) :
    (c :: t).take 8 ≠ "Infinity".data := by
  intro h
  rw [List.take_succ_cons] at h
  have hI : "Infinity".data = 'I' :: "nfinity".data := rfl
  rw [hI] at h
  have : c = 'I' := (List.cons.injEq _ _ _ _ ▸ h).1
  subst this
  exact absurd hc (by decide)

lemma spanDigits_cons_digit {c : Char} {t : List Char} (hc : isDigitCh c = true) :
    spanDigits (c :: t) = (c :: (spanDigits t).1, (spanDigits t).2) := by
  simp only [spanDigits]
  rw [if_pos hc]

lemma parseMag_isSome_of_digit {c : Char} {t : List Char} (hc : isDigitCh c = true) :
    (parseMag (c :: t)).isSome = true := by
  unfold parseMag
  rw [if_neg (take_ne_infinity hc), spanDigits_cons_digit hc, if_neg ?hne]
  case hne =>
    rintro ⟨h, -⟩
    exact List.cons_ne_nil _ _ h
  rfl

lemma jsParseFloatCore_isSome_of_digit {c : Char} {t : List Char}
    (hc : isDigitCh c = true) : (jsParseFloatCore (c :: t)).isSome = true := by
  simp only [jsParseFloatCore]
  rw [if_neg (isDigitCh_ne_minus hc), if_neg (isDigitCh_ne_plus hc)]
  exact parseMag_isSome_of_digit hc

lemma typedChars_parses {l : List Char} (h : TypedChars l) :
    (jsParseFloatCore l).isSome = true := by
  obtain ⟨h1, -, -⟩ := h
  cases l with
  | nil => exact absurd h1 (by simp [headIsDigit])
  | cons c t =>
    have hc : isDigitCh c = true := by simpa [headIsDigit] using h1
    exact jsParseFloatCore_isSome_of_digit hc

lemma isDigitCh_digitCh {k : Nat} (hk : k < 10) : isDigitCh (digitCh k) = true := by
  interval_cases k <;> decide

lemma natToCharsAux_shape (f : Nat) : ∀ n : Nat,
    natToCharsAux f n = [] ∨
    ∃ c t, natToCharsAux f n = c :: t ∧ isDigitCh c = true := by
  induction f with
  | zero => intro n; exact Or.inl rfl
  | succ f ih =>
    intro n
    by_cases hn : n = 0
    · exact Or.inl (by simp [natToCharsAux, hn])
    · right
      have hrec := ih (n / 10)
      have hd : isDigitCh (digitCh (n % 10)) = true :=
        isDigitCh_digitCh (Nat.mod_lt n (by norm_num))
      rcases hrec with hrec | ⟨c, t, hct, hc⟩
      · refine ⟨digitCh (n % 10), [], ?_, hd⟩
        simp [natToCharsAux, hn, hrec]
      · refine ⟨c, t ++ [digitCh (n % 10)], ?_, hc⟩
        simp [natToCharsAux, hn, hct]

lemma natToChars_shape (n : Nat) :
    ∃ c t, natToChars n = c :: t ∧ isDigitCh c = true := by
  by_cases hn : n = 0
  · exact ⟨'0', [], by simp [natToChars, hn], by decide⟩
  · rcases natToCharsAux_shape (n + 1) n with h | ⟨c, t, hct, hc⟩
    · exfalso
      have : natToCharsAux (n + 1) n = natToCharsAux n (n / 10) ++ [digitCh (n % 10)] := by
        simp [natToCharsAux, hn]
      rw [this] at h
      exact absurd h (by simp)
    · exact ⟨c, t, by simp [natToChars, hn, hct], hc⟩

lemma ratToChars_shape (q : ℚ) :
    (∃ c t, ratToChars q = c :: t ∧ isDigitCh c = true) ∨
    (∃ c t, ratToChars q = '-' :: c :: t ∧ isDigitCh c = true) := by
  obtain ⟨c, t, hct, hc⟩ := natToChars_shape (q.num.natAbs / q.den)
  unfold ratToChars
  by_cases hq : q < 0
  · rw [if_pos hq, hct]
    exact Or.inr ⟨c, _, rfl, hc⟩
  · rw [if_neg hq, hct]
    exact Or.inl ⟨c, _, rfl, hc⟩

lemma parses_numToString (v : JSNum) :
    ParsesAsNumeric (numToString v) ∨ numToString v = "NaN" := by
  cases v with
  | nan => exact Or.inr rfl
  | posInf => exact Or.inl (by decide)
  | negInf => exact Or.inl (by decide)
  | finite q =>
    left
    show (jsParseFloatCore (String.mk (ratToChars q)).data).isSome = true
    rcases ratToChars_shape q with ⟨c, t, hct, hc⟩ | ⟨c, t, hct, hc⟩
    · have : (String.mk (ratToChars q)).data = c :: t := hct
      rw [this]
      exact jsParseFloatCore_isSome_of_digit hc
    · have : (String.mk (ratToChars q)).data = '-' :: c :: t := hct
      rw [this]
      simp only [jsParseFloatCore, if_true]
      have := parseMag_isSome_of_digit (t := t) hc
      cases hm : parseMag (c :: t) with
      | none => rw [hm] at this; exact absurd this (by simp)
      | some w => simp [hm]

/-! ## The pending-operation iff is preserved by every event in isolation -/

lemma handleNumber_ops (d : String) (s : CalcState) :
    (handleNumber d s).operator = s.operator ∧
    (handleNumber d s).previousValue = s.previousValue := by
  simp only [handleNumber]
  split
  · exact ⟨rfl, rfl⟩
  · split <;> (try split) <;> exact ⟨rfl, rfl⟩

lemma handleDecimal_ops (s : CalcState) :
    (handleDecimal s).operator = s.operator ∧
    (handleDecimal s).previousValue = s.previousValue := by
  simp only [handleDecimal]
  split
  · exact ⟨rfl, rfl⟩
  · split
    · exact ⟨rfl, rfl⟩
    · exact ⟨rfl, rfl⟩

lemma handleBackspace_ops (s : CalcState) :
    (handleBackspace s).operator = s.operator ∧
    (handleBackspace s).previousValue = s.previousValue := by
  simp only [handleBackspace]
  split
  · exact ⟨rfl, rfl⟩
  · exact ⟨rfl, rfl⟩

lemma opInv_step (e : Ev) (s : CalcState)
    (h : s.operator = none ↔ s.previousValue = none) :
    (step e s).operator = none ↔ (step e s).previousValue = none := by
  cases e with
  | num d =>
    simp only [step]
    rw [(handleNumber_ops (digitStr d) s).1, (handleNumber_ops (digitStr d) s).2]
    exact h
  | dec =>
    simp only [step]
    rw [(handleDecimal_ops s).1, (handleDecimal_ops s).2]
    exact h
  | back =>
    simp only [step]
    rw [(handleBackspace_ops s).1, (handleBackspace_ops s).2]
    exact h
  | clear => simp [step, handleClear, initState]
  | op o =>
    simp only [step]
    cases hp : s.previousValue with
    | none => rw [handleOperator_start o hp]; simp
    | some v =>
      cases ho : s.operator with
      | none => rw [handleOperator_subst o hp (Or.inl ho)]; simp [hp]
      | some o' =>
        cases hw : s.waitingForOperand with
        | true => rw [handleOperator_subst o hp (Or.inr hw)]; simp [hp]
        | false => rw [handleOperator_compute o hp ho hw]; simp
  | eq =>
    simp only [step]
    cases ho : s.operator with
    | none => rw [handleEquals_noop (Or.inl ho)]; exact h
    | some o' =>
      cases hp : s.previousValue with
      | none => rw [handleEquals_noop (Or.inr hp)]; exact h
      | some v => rw [handleEquals_compute ho hp]; simp

lemma cap_digitStr (d : Fin 10) : ¬(removeFirstDot (digitStr d).data).length > 15 := by
  fin_cases d <;> decide

/-! ## The claims -/

/-- Claim C1: pressing an operator first parses the display as the input
value; with no pending operand it records it and the operator and awaits a new
operand; with a pending operand, a pending operator and a typed operand it
evaluates, shows and chains the result; otherwise it only substitutes the
pending operator, and the sequence 5, +, - leaves the pending operand 5, the
pending operator subtract and the display "5". -/
theorem operatorSelection_spec : ∀ (s : CalcState) (o : Op),
    (s.previousValue = none →
      handleOperator o s =
        { s with previousValue := some (jsParseFloat s.display),
                 operator := some o, waitingForOperand := true }) ∧
    (∀ (pv : JSNum) (o' : Op), s.previousValue = some pv → s.operator = some o' →
      s.waitingForOperand = false →
      handleOperator o s =
        { display := numToString (calculate pv (jsParseFloat s.display) o'),
          previousValue := some (calculate pv (jsParseFloat s.display) o'),
          operator := some o, waitingForOperand := true }) ∧
    (∀ pv : JSNum, s.previousValue = some pv →
      s.operator = none ∨ s.waitingForOperand = true →
      handleOperator o s = { s with operator := some o, waitingForOperand := true }) ∧
    run [Ev.num 5, Ev.op Op.add, Ev.op Op.sub] initState =
      ⟨"5", some (JSNum.finite 5), some Op.sub, true⟩ := by
  intro s o
  exact ⟨fun hp => handleOperator_start o hp,
    fun pv o' hp ho hw => handleOperator_compute o hp ho hw,
    fun pv hp hn => handleOperator_subst o hp hn,
    by with_unfolding_all decide⟩

theorem operatorSelection_spec_witness :
    handleOperator Op.add initState =
      { initState with
          previousValue := some (jsParseFloat initState.display),
          operator := some Op.add, waitingForOperand := true } :=
  (operatorSelection_spec initState Op.add).1 rfl

/-- Claim C2: in every reachable state the pending operator is absent exactly
when the pending operand is absent, and every handler preserves this
invariant. -/
theorem pendingPair_invariant :
    (∀ s : CalcState, Reachable s → (s.operator = none ↔ s.previousValue = none)) ∧
    (∀ (e : Ev) (s : CalcState), (s.operator = none ↔ s.previousValue = none) →
      ((step e s).operator = none ↔ (step e s).previousValue = none)) :=
  ⟨fun _ h => (reachable_goodState h).1, opInv_step⟩

theorem pendingPair_invariant_witness :
    (initState.operator = none ↔ initState.previousValue = none) ∧
    ((step Ev.eq initState).operator = none ↔
      (step Ev.eq initState).previousValue = none) :=
  ⟨pendingPair_invariant.1 initState Reachable.init,
   pendingPair_invariant.2 Ev.eq initState
     (pendingPair_invariant.1 initState Reachable.init)⟩

/-- Claim C3: the input sequence 5, +, 3, ×, 2, = passes through exactly the
claimed intermediate states — pending 5/add, display "3", then computes
5 + 3 = 8 and pends 8/multiply, display "2", and equals computes 8 × 2 = 16,
displays "16" and clears the pending operation. -/
theorem chainedEvaluation_trace :
    run [Ev.num 5, Ev.op Op.add] initState =
      ⟨"5", some (JSNum.finite 5), some Op.add, true⟩ ∧
    run [Ev.num 5, Ev.op Op.add, Ev.num 3] initState =
      ⟨"3", some (JSNum.finite 5), some Op.add, false⟩ ∧
    run [Ev.num 5, Ev.op Op.add, Ev.num 3, Ev.op Op.mul] initState =
      ⟨"8", some (JSNum.finite 8), some Op.mul, true⟩ ∧
    run [Ev.num 5, Ev.op Op.add, Ev.num 3, Ev.op Op.mul, Ev.num 2] initState =
      ⟨"2", some (JSNum.finite 8), some Op.mul, false⟩ ∧
    run [Ev.num 5, Ev.op Op.add, Ev.num 3, Ev.op Op.mul, Ev.num 2, Ev.eq] initState =
      ⟨"16", none, none, true⟩ := by
  refine ⟨by with_unfolding_all decide, by with_unfolding_all decide,
    by with_unfolding_all decide, by with_unfolding_all decide,
    by with_unfolding_all decide⟩

/-- Claim C4: the evaluator is total over the numeric domain and the four
operators, agrees with exact arithmetic on finite operands (with a nonzero
right operand for division), and for division by zero returns the sentinel —
Infinity for a positive, -Infinity for a negative and NaN for a zero left
operand; sentinels are themselves valid operands. -/
theorem evaluate_spec :
    (∀ a b : ℚ, calculate (.finite a) (.finite b) .add = .finite (a + b) ∧
      calculate (.finite a) (.finite b) .sub = .finite (a - b) ∧
      calculate (.finite a) (.finite b) .mul = .finite (a * b)) ∧
    (∀ a b : ℚ, b ≠ 0 → calculate (.finite a) (.finite b) .div = .finite (a / b)) ∧
    (∀ a : ℚ, 0 < a → calculate (.finite a) (.finite 0) .div = .posInf) ∧
    (∀ a : ℚ, a < 0 → calculate (.finite a) (.finite 0) .div = .negInf) ∧
    calculate (.finite 0) (.finite 0) .div = .nan ∧
    (∀ (b : JSNum) (o : Op), calculate .nan b o = .nan) ∧
    calculate .posInf (.finite 1) .add = .posInf := by
  refine ⟨?_, ?_, ?_, ?_, ?_, ?_, rfl⟩
  · intro a b
    refine ⟨rfl, ?_, rfl⟩
    show JSNum.finite (a + -b) = JSNum.finite (a - b)
    rw [sub_eq_add_neg]
  · intro a b hb
    show (if b = 0 then
            if 0 < a then JSNum.posInf else if a < 0 then JSNum.negInf else JSNum.nan
          else JSNum.finite (a / b)) = JSNum.finite (a / b)
    rw [if_neg hb]
  · intro a ha
    show (if (0 : ℚ) = 0 then
            if 0 < a then JSNum.posInf else if a < 0 then JSNum.negInf else JSNum.nan
          else JSNum.finite (a / 0)) = JSNum.posInf
    rw [if_pos rfl, if_pos ha]
  · intro a ha
    show (if (0 : ℚ) = 0 then
            if 0 < a then JSNum.posInf else if a < 0 then JSNum.negInf else JSNum.nan
          else JSNum.finite (a / 0)) = JSNum.negInf
    rw [if_pos rfl, if_neg (not_lt.mpr ha.le), if_pos ha]
  · rfl
  · intro b o
    cases o <;> cases b <;> rfl

theorem evaluate_spec_witness :
    calculate (.finite 1) (.finite 2) .div = .finite (1 / 2) ∧
    calculate (.finite 1) (.finite 0) .div = .posInf ∧
    calculate (.finite (-1)) (.finite 0) .div = .negInf :=
  ⟨evaluate_spec.2.1 1 2 (by norm_num),
   evaluate_spec.2.2.1 1 (by norm_num),
   evaluate_spec.2.2.2.1 (-1) (by norm_num)⟩

/-- Claim C5: digit entry starts a fresh display while a new operand is
awaited, replaces a lone "0" rather than appending, and otherwise appends the
digit unless the digit count excluding the decimal point would exceed 15, in
which case the state is unchanged; typing "0" then "5" yields "5" and a 16th
digit is silently dropped, leaving the 15-digit display. -/
theorem digitEntry_spec : ∀ (s : CalcState) (d : Fin 10),
    (s.waitingForOperand = true →
      handleNumber (digitStr d) s =
        { s with display := digitStr d, waitingForOperand := false }) ∧
    (s.waitingForOperand = false → s.display = "0" →
      handleNumber (digitStr d) s = { s with display := digitStr d }) ∧
    (s.waitingForOperand = false → s.display ≠ "0" →
      (removeFirstDot (s.display.data ++ (digitStr d).data)).length > 15 →
      handleNumber (digitStr d) s = s) ∧
    (s.waitingForOperand = false → s.display ≠ "0" →
      ¬(removeFirstDot (s.display.data ++ (digitStr d).data)).length > 15 →
      handleNumber (digitStr d) s =
        { s with display := String.mk (s.display.data ++ (digitStr d).data) }) ∧
    run [Ev.num 0, Ev.num 5] initState = ⟨"5", none, none, false⟩ ∧
    run (List.replicate 16 (Ev.num 1)) initState =
      ⟨"111111111111111", none, none, false⟩ ∧
    run (List.replicate 15 (Ev.num 1)) initState =
      ⟨"111111111111111", none, none, false⟩ := by
  intro s d
  refine ⟨fun hw => handleNumber_waiting _ hw, fun hw h0 => ?_, fun hw h0 hc => ?_,
    fun hw h0 hc => ?_, by decide, by decide, by decide⟩
  · rw [handleNumber_typing_zero _ hw h0, if_neg (cap_digitStr d)]
  · rw [handleNumber_typing_append _ hw h0, if_pos hc]
  · rw [handleNumber_typing_append _ hw h0, if_neg hc]

theorem digitEntry_spec_witness :
    handleNumber (digitStr 5) initState = { initState with display := digitStr 5 } :=
  (digitEntry_spec initState 5).2.1 rfl rfl

/-- Claim C6 is refuted as stated: the state after 0, ÷, 0, = is reachable,
its display is "NaN", which neither parses as a numeric literal (parseFloat
finds no numeric prefix in it) nor ends in a trailing decimal point. -/
theorem displayParses_counterexample :
    (run [Ev.op Op.div, Ev.num 0, Ev.eq] initState).display = "NaN" ∧
    Reachable (run [Ev.op Op.div, Ev.num 0, Ev.eq] initState) ∧
    ¬ParsesAsNumeric (run [Ev.op Op.div, Ev.num 0, Ev.eq] initState).display ∧
    ¬(run [Ev.op Op.div, Ev.num 0, Ev.eq] initState).display.data.getLast? =
      some '.' := by
  refine ⟨by with_unfolding_all decide, ?_, by with_unfolding_all decide,
    by with_unfolding_all decide⟩
  exact Reachable.next .eq (Reachable.next (.num 0) (Reachable.next (.op .div) Reachable.init))

/-- Claim C6, amended: in every reachable state the display parses as a
numeric value (parseFloat also accepts the "Infinity" sentinel spelling),
except transiently while a trailing decimal point is being typed — and except
the display "NaN", the rendering of the NaN sentinel produced by 0 ÷ 0. -/
theorem displayParses_amended : ∀ s : CalcState, Reachable s →
    ParsesAsNumeric s.display ∨ s.display.data.getLast? = some '.' ∨
      s.display = "NaN" := by
  intro s h
  rcases (reachable_goodState h).2.2 with ht | ⟨v, hv⟩
  · exact Or.inl (typedChars_parses ht)
  · rw [hv]
    rcases parses_numToString v with hp | hnan
    · exact Or.inl hp
    · exact Or.inr (Or.inr hnan)

theorem displayParses_amended_witness :
    ParsesAsNumeric initState.display ∨
      initState.display.data.getLast? = some '.' ∨ initState.display = "NaN" :=
  displayParses_amended initState Reachable.init

/-- Claim C7: decimal entry starts "0." while a new operand is awaited, is
ignored when the display already holds a decimal point, and otherwise appends
one; it is idempotent, and the resulting display holds exactly one decimal
point. -/
theorem decimalEntry_spec : ∀ s : CalcState,
    (s.waitingForOperand = true →
      handleDecimal s = { s with display := "0.", waitingForOperand := false }) ∧
    (s.waitingForOperand = false → '.' ∈ s.display.data → handleDecimal s = s) ∧
    (s.waitingForOperand = false → '.' ∉ s.display.data →
      handleDecimal s = { s with display := String.mk (s.display.data ++ ['.']) }) ∧
    handleDecimal (handleDecimal s) = handleDecimal s ∧
    (s.display.data.count '.' ≤ 1 → (handleDecimal s).display.data.count '.' = 1) := by
  intro s
  refine ⟨fun hw => handleDecimal_waiting hw, fun hw hd => handleDecimal_has_dot hw hd,
    fun hw hd => handleDecimal_no_dot hw hd, ?_, ?_⟩
  · cases hw : s.waitingForOperand with
    | true =>
      rw [handleDecimal_waiting hw]
      exact handleDecimal_has_dot rfl (show '.' ∈ ("0." : String).data by decide)
    | false =>
      by_cases hd : '.' ∈ s.display.data
      · rw [handleDecimal_has_dot hw hd, handleDecimal_has_dot hw hd]
      · rw [handleDecimal_no_dot hw hd]
        exact handleDecimal_has_dot hw (by simp)
  · intro hc
    cases hw : s.waitingForOperand with
    | true =>
      rw [handleDecimal_waiting hw]
      show ("0." : String).data.count '.' = 1
      decide
    | false =>
      by_cases hd : '.' ∈ s.display.data
      · rw [handleDecimal_has_dot hw hd]
        have := List.count_pos_iff.mpr hd
        omega
      · rw [handleDecimal_no_dot hw hd]
        show (s.display.data ++ ['.']).count '.' = 1
        rw [List.count_append, List.count_eq_zero.mpr hd]
        decide

theorem decimalEntry_spec_witness :
    handleDecimal initState =
      { initState with display := String.mk (initState.display.data ++ ['.']) } :=
  (decimalEntry_spec initState).2.2.1 rfl (by decide)

/-- Claim C8: backspace leaves the whole state tuple unchanged while a new
operand is awaited; otherwise it removes the last display character, and an
emptied display becomes "0" — in particular a single-character display becomes
"0", never the empty string. -/
theorem backspace_spec : ∀ s : CalcState,
    (s.waitingForOperand = true → handleBackspace s = s) ∧
    (s.waitingForOperand = false → s.display.data.dropLast = [] →
      handleBackspace s = { s with display := "0" }) ∧
    (s.waitingForOperand = false → s.display.data.dropLast ≠ [] →
      handleBackspace s = { s with display := String.mk s.display.data.dropLast }) ∧
    (s.waitingForOperand = false → s.display.data.length = 1 →
      (handleBackspace s).display = "0") := by
  intro s
  refine ⟨fun hw => handleBackspace_waiting hw, fun hw hd => ?_, fun hw hd => ?_,
    fun hw hl => ?_⟩
  · rw [handleBackspace_typing hw, if_pos hd]
  · rw [handleBackspace_typing hw, if_neg hd]
  · have hd : s.display.data.dropLast = [] := by
      rw [← List.length_eq_zero, List.length_dropLast, hl]
    rw [handleBackspace_typing hw, if_pos hd]

theorem backspace_spec_witness :
    handleBackspace ⟨"7", none, none, false⟩ =
      { (⟨"7", none, none, false⟩ : CalcState) with display := "0" } :=
  (backspace_spec ⟨"7", none, none, false⟩).2.1 rfl (by decide)

/-- Claim C9: every key of the keyboard table performs, on every state,
exactly the transition of the corresponding on-screen button — the two input
modalities are indistinguishable to the state machine. -/
theorem keyboardButton_equiv : ∀ s : CalcState,
    (∀ n : Fin 10, keyStep (digitStr n) s = buttonStep (.digitBtn n) s) ∧
    keyStep "+" s = buttonStep .addBtn s ∧
    keyStep "-" s = buttonStep .subBtn s ∧
    keyStep "*" s = buttonStep .mulBtn s ∧
    keyStep "/" s = buttonStep .divBtn s ∧
    keyStep "Enter" s = buttonStep .eqBtn s ∧
    keyStep "=" s = buttonStep .eqBtn s ∧
    keyStep "." s = buttonStep .decBtn s ∧
    keyStep "," s = buttonStep .decBtn s ∧
    keyStep "Backspace" s = buttonStep .backBtn s ∧
    keyStep "Delete" s = buttonStep .backBtn s ∧
    keyStep "Escape" s = buttonStep .acBtn s := by
  intro s
  refine ⟨fun n => ?_, rfl, rfl, rfl, rfl, rfl, rfl, rfl, rfl, rfl, rfl, rfl⟩
  fin_cases n <;> rfl

/-- Claim C10: in every reachable state with the awaiting-new-operand flag
clear, the display is non-empty and holds only decimal digits and at most one
decimal point — computed text such as "Infinity" or "NaN" can appear only
while the flag is set, so backspace and digit appending only ever see
hand-typed text. -/
theorem typedDisplay_invariant : ∀ s : CalcState, Reachable s →
    s.waitingForOperand = false →
    s.display.data ≠ [] ∧ (∀ c ∈ s.display.data, isDigitCh c = true ∨ c = '.') ∧
    s.display.data.count '.' ≤ 1 := by
  intro s h hw
  obtain ⟨h1, h2, h3⟩ := (reachable_goodState h).2.1 hw
  refine ⟨?_, h2, h3⟩
  intro hnil
  rw [hnil] at h1
  exact absurd h1 (by decide)

theorem typedDisplay_invariant_witness :
    ("0" : String).data ≠ [] ∧
    (∀ c ∈ ("0" : String).data, isDigitCh c = true ∨ c = '.') ∧
    ("0" : String).data.count '.' ≤ 1 :=
  typedDisplay_invariant initState Reachable.init rfl

end Calc
